import Mathlib

/-!
Verification of `ascii-video-play.c` (single-file ASCII video preview).

The development shallowly embeds the program's core computations:

* the glyph ramp and the luminance-to-glyph quantization of `display_frame`
  (source lines 230-246);
* the character-grid rendering loop of `display_frame`, with the row pointer
  advanced by `linesize` exactly as in the C code;
* the dynamic scale calculation of `init_filters` (source lines 164-193),
  the "Geometry Resolver" — C `double` arithmetic is modelled with exact
  rationals (`ℚ`), and C `round` (round half away from zero, here only
  applied to positive values) with Mathlib's `round` (round half up, which
  agrees with it on nonnegative arguments);
* the read/decode/filter loop of `main` (source lines 278-342) together with
  the exit-code logic of lines 354-362, as a function over an abstract trace
  of demuxer/decoder/filter events.

Note that in the source the statement `frame_displayed = 1;` (line 329) is
commented out, so the C variable `frame_displayed`, initialized to `0` at
line 279, is never assigned: it is a constant. The embedding models it as
the constant `frame_displayed := false` and keeps every test of it exactly
where the source tests the variable.
-/

namespace AsciiVideoPlay

/-! ### Glyph ramp and quantization (`display_frame`, line 241) -/

/-- The five-glyph ramp `" .-+#"` used by `display_frame`. -/
def glyphRamp : List Char := [' ', '.', '-', '+', '#']

/-- Quantization of one 8-bit luminance sample: `" .-+#"[sample / 52]`
(source line 241). On a C `uint8_t` the index `sample / 52` is at most 4;
out-of-range indices (impossible for byte input) fall back to the default
character, which is irrelevant to every property proved below. -/
def glyphOf (sample : Nat) : Char := glyphRamp.getD (sample / 52) ' '

/-! ### The renderer (`display_frame`, lines 230-246) -/

/-- A single-channel 8-bit luminance frame as seen by `display_frame`:
`data` is the byte buffer `frame->data[0]`, rows start every `linesize`
bytes, and only the first `width` bytes of each row are meaningful. -/
structure LumaFrame where
  width : Nat
  height : Nat
  linesize : Nat
  data : List Nat
deriving DecidableEq, Repr

/-- The cursor-reset control sequence `"\033[H"` printed before each frame
(source line 237). -/
def cursorReset : List Char := ['\x1b', '[', 'H']

/-- One row of glyphs: the inner `for (x = 0; x < frame->width; x++)` loop,
with the byte pointer `p` advancing by one per column (source lines 240-241).
The first argument of the recursion is the number of columns still to
emit. -/
def renderRow (data : List Nat) (p : Nat) : Nat → List Char
  | 0 => []
  | n + 1 => glyphOf (data.getD p 0) :: renderRow data (p + 1) n

/-- The outer `for (y = 0; y < frame->height; y++)` loop: each row is
rendered from offset `p0`, a newline is emitted after it, and `p0` advances
by `linesize` (source lines 238-244). -/
def renderLines (data : List Nat) (p0 ls w : Nat) : Nat → List Char
  | 0 => []
  | n + 1 => renderRow data p0 w ++ '\n' :: renderLines data (p0 + ls) ls w n

/-- The character stream emitted by `display_frame`: the cursor-reset
sequence followed by `height` newline-terminated rows of `width` glyphs
(the trailing `fflush` emits no characters). -/
def display_frame (f : LumaFrame) : List Char :=
  cursorReset ++ renderLines f.data 0 f.linesize f.width f.height

/-! ### Geometry resolver (`init_filters`, lines 164-193)

The C code computes with `double`; the embedding uses exact rationals. Every
intermediate is named after the corresponding C variable. -/

/-- `MAX_ASCII_WIDTH` (source line 55). -/
def maxAsciiWidth : ℚ := 80

/-- The character cell aspect constant `0.5` (source line 60). -/
def characterCellAspect : ℚ := 1 / 2

/-- `video_width` after the SAR correction of lines 165-172: multiplied by
`sar` when both components are positive, else left at `input_width`. -/
def video_width (w sn sd : ℤ) : ℚ :=
  if 0 < sn ∧ 0 < sd then (w : ℚ) * ((sn : ℚ) / (sd : ℚ)) else (w : ℚ)

/-- `adjusted_aspect_ratio = (video_width / video_height) / 0.5`
(source lines 174, 180). -/
def adjustedAspect (w h sn sd : ℤ) : ℚ :=
  (video_width w sn sd / (h : ℚ)) / characterCellAspect

/-- `target_height = round(target_width / adjusted_aspect_ratio)` with
`target_width = MAX_ASCII_WIDTH` (source lines 183-184). The C `round`
yields an integral double, embedded as the integer cast back to `ℚ`. -/
def target_height_rounded (w h sn sd : ℤ) : ℚ :=
  ((round (maxAsciiWidth / adjustedAspect w h sn sd) : ℤ) : ℚ)

/-- `if (target_height < 1) target_height = 1;` (source line 187). -/
def target_height_floored (w h sn sd : ℤ) : ℚ :=
  if target_height_rounded w h sn sd < 1 then 1 else target_height_rounded w h sn sd

/-- `target_width = (int)round(target_width / 2.0) * 2` with
`target_width = 80` (source line 188). -/
def target_width_even : ℤ := round (maxAsciiWidth / 2) * 2

/-- `target_height = (int)round(target_height / 2.0) * 2` (source line 189). -/
def target_height_even (w h sn sd : ℤ) : ℤ :=
  round (target_height_floored w h sn sd / 2) * 2

/-- The resolved character-grid geometry passed into the
`"scale=W:H,format=gray"` filter description (source lines 195-199). -/
structure GridGeometry where
  columns : ℤ
  rows : ℤ
deriving DecidableEq, Repr

/-- The full dynamic scale calculation of `init_filters` (lines 164-193),
including the final `if (dim == 0) dim = 2;` clamps of lines 192-193. -/
def resolveGeometry (w h sn sd : ℤ) : GridGeometry :=
  ⟨if target_width_even = 0 then 2 else target_width_even,
   if target_height_even w h sn sd = 0 then 2 else target_height_even w h sn sd⟩

/-- Stated from the spec's words (§4.1 / §8 property 1), for comparison
with `resolveGeometry`: rows is `round(80 / ((srcWidth*sarReal/srcHeight)/0.5))`
with `sarReal = sarNum/sarDen`, floored at 1, rounded to the nearest even
integer (`round(x/2)*2`), and clamped to at least 2. -/
def specRows (w h sn sd : ℤ) : ℤ :=
  max
    (round
      (((max (round ((80 : ℚ) / (((w : ℚ) * ((sn : ℚ) / (sd : ℚ)) / (h : ℚ)) / (1/2 : ℚ)))) 1 : ℤ) : ℚ)
        / 2) * 2)
    2

/-! ### The pipeline driver (`main`, lines 248-363)

The loop of `main` is embedded as a function over an abstract trace of the
events the external libraries produce: each `av_read_frame` result, each
`avcodec_send_packet`/`avcodec_receive_frame` result and each
`av_buffersink_get_frame` result is an input symbol. The loop body is
translated branch by branch. -/

/-- The C variable `frame_displayed`, initialized to 0 at line 279. The
only assignment to it, `frame_displayed = 1;` at line 329, is commented out
in the source, so the variable is the constant 0 (`false`). -/
def frame_displayed : Bool := false

/-- Result of one `av_buffersink_get_frame` call (lines 318-330):
a transformed frame (`ret >= 0`), `AVERROR(EAGAIN)` (needs more input),
`AVERROR_EOF` (drained), or a fatal negative error. -/
inductive PullStep where
  | yield
  | empty
  | drained
  | fatal
deriving DecidableEq, Repr

/-- Result of one `avcodec_receive_frame` call (lines 299-314): a decoded
frame (then pushed into the filtergraph; `pushOk` is the sign of
`av_buffersrc_add_frame_flags` at line 311, and `pull` the single
`av_buffersink_get_frame` iteration the `while(1)` loop of lines 317-331
performs before its unconditional `break`), `EAGAIN`/`EOF` (needs more
packets / no more frames), or a hard decode error. -/
inductive RecvStep where
  | got (pushOk : Bool) (pull : PullStep)
  | needMore
  | recvFatal
deriving DecidableEq, Repr

/-- Result of `avcodec_send_packet` (lines 289-296): success, a temporary
`EAGAIN`/`EOF` error (logged, loop continues), or a fatal error (breaks the
read loop). -/
inductive SendRes where
  | ok
  | tempErr
  | sendFatal
deriving DecidableEq, Repr

/-- One successful `av_read_frame` result (lines 281-288): a packet of the
selected video stream (with the decoder/filter events it triggers) or a
packet of another stream (discarded). -/
inductive ReadEvent where
  | nonVideo
  | video (send : SendRes) (recvs : List RecvStep)
deriving DecidableEq, Repr

/-- How the packet stream ends: `av_read_frame` returns `AVERROR_EOF` or
another negative error (lines 281-286). -/
inductive ReadTerm where
  | eofT
  | readErrT
deriving DecidableEq, Repr

/-- How control reaches the `end:` label at line 344, determining the value
of `ret` there. -/
inductive EndState where
  | openError       -- `goto end` from line 271-272, `ret < 0`, not EOF
  | graphBuildError -- `goto end` from line 275-276, `ret < 0`, not EOF
  | readEof         -- read loop break at line 285 with `ret == AVERROR_EOF`
  | readError       -- read loop break at line 285 with another `ret < 0`
  | sendPacketFatal -- break at line 294 with `ret < 0`, not EAGAIN/EOF
  | decodeFatal     -- `goto end` at line 305 with `ret < 0`, not EAGAIN/EOF
  | filterFatal     -- `goto end` at line 325 with `ret < 0`, not EAGAIN/EOF
  | displayedExit   -- a `break` guarded by `frame_displayed` fired (dead code)
deriving DecidableEq, Repr

/-- Outcome of running the `while (!frame_displayed)` read loop (lines
280-342) to completion: how many frames `display_frame` was invoked on, and
how the loop was left. -/
structure RunOut where
  rendered : Nat
  endState : EndState
deriving DecidableEq, Repr

/-- How the `while (ret >= 0)` drain loop of lines 298-336 leaves the
enclosing read-loop iteration. -/
inductive RecvRes where
  | outerContinue
  | gotoDecodeFatal
  | gotoFilterFatal
deriving DecidableEq, Repr

/-- The `while (ret >= 0)` drain loop (lines 298-336). An exhausted event
list stands for the decoder answering `EAGAIN`. After a pushed frame, the
pull `while(1)` loop of lines 317-331 runs exactly one iteration: a
produced frame is displayed, unreferenced and the loop breaks
(`frame_displayed` stays unset, line 329 being commented out);
`EAGAIN`/`EOF` breaks the pull loop with `ret < 0`, which then also ends
the drain loop; any other negative `ret` jumps to `end:`. -/
def runRecvs (n : Nat) : List RecvStep → Nat × RecvRes
  | [] => (n, .outerContinue)
  | .needMore :: _ => (n, .outerContinue)
  | .recvFatal :: _ => (n, .gotoDecodeFatal)
  | .got pushOk pull :: rest =>
    if pushOk then
      match pull with
      | .yield =>
        -- display_frame, av_frame_unref, then line 333: if (frame_displayed) break;
        if frame_displayed then (n + 1, .outerContinue)
        else runRecvs (n + 1) rest
      | .empty => (n, .outerContinue)
      | .drained => (n, .outerContinue)
      | .fatal => (n, .gotoFilterFatal)
    else (n, .outerContinue) -- av_buffersrc_add_frame_flags < 0: break (line 313)

/-- The read loop of `main` (lines 280-342). The loop guard
`while (!frame_displayed)` is always true because `frame_displayed` is
constant `false`; the guarded breaks at lines 333 and 339 are kept where
the source has them. -/
def runLoop (n : Nat) : List ReadEvent → ReadTerm → RunOut
  | [], .eofT => ⟨n, .readEof⟩
  | [], .readErrT => ⟨n, .readError⟩
  | .nonVideo :: rest, t =>
    -- av_packet_unref, then line 339: if (frame_displayed) break;
    if frame_displayed then ⟨n, .displayedExit⟩ else runLoop n rest t
  | .video send recvs :: rest, t =>
    match send with
    | .sendFatal => ⟨n, .sendPacketFatal⟩
    | .tempErr =>
      if frame_displayed then ⟨n, .displayedExit⟩ else runLoop n rest t
    | .ok =>
      match runRecvs n recvs with
      | (n', .outerContinue) =>
        if frame_displayed then ⟨n', .displayedExit⟩ else runLoop n' rest t
      | (n', .gotoDecodeFatal) => ⟨n', .decodeFatal⟩
      | (n', .gotoFilterFatal) => ⟨n', .filterFatal⟩

/-- The sign and EOF-ness of `ret` at the `end:` label, per `EndState`. -/
def retAtEnd : EndState → Bool × Bool
  | .readEof => (true, true)
  | .displayedExit => (false, false)
  | _ => (true, false)

/-- The exit-code logic of lines 354-362, with `frame_displayed` the
constant the source leaves it as. -/
def finalExit (k : EndState) : Nat :=
  let neg := (retAtEnd k).1
  let isEof := (retAtEnd k).2
  if neg && !isEof && !frame_displayed then 1
  else if !frame_displayed && isEof then 1
  else 0

/-- A complete program run: CLI misuse (line 255), `open_input_file`
failure (line 271), `init_filters` failure (line 275), or a read loop over
a trace of events. -/
inductive DriverInput where
  | badUsage
  | openFail
  | initFail
  | run (events : List ReadEvent) (t : ReadTerm)
deriving DecidableEq, Repr

/-- Observable outcome of a run: frames displayed and process exit code. -/
structure DriverOut where
  rendered : Nat
  exitCode : Nat
deriving DecidableEq, Repr

/-- `main` end to end: argument check (lines 255-258, exit 1), the two
fallible setup calls (`goto end` with `ret < 0`), then the read loop and
the final status report of lines 354-362. -/
def runDriver : DriverInput → DriverOut
  | .badUsage => ⟨0, 1⟩
  | .openFail => ⟨0, finalExit .openError⟩
  | .initFail => ⟨0, finalExit .graphBuildError⟩
  | .run events t =>
    let r := runLoop 0 events t
    ⟨r.rendered, finalExit r.endState⟩

/-! ## Helper lemmas -/

theorem glyphOf_mem (s : Nat) : glyphOf s ∈ glyphRamp := by
  unfold glyphOf
  rcases lt_or_ge (s / 52) glyphRamp.length with hlt | hge
  · rw [List.getD_eq_getElem _ _ hlt]
    exact List.getElem_mem hlt
  · rw [List.getD_eq_default _ _ hge]
    decide

theorem glyphOf_ne_newline (s : Nat) : glyphOf s ≠ '\n' := by
  have h := glyphOf_mem s
  intro hc
  rw [hc] at h
  revert h
  decide

theorem renderRow_length (data : List Nat) (p w : Nat) :
    (renderRow data p w).length = w := by
  induction w generalizing p with
  | zero => rfl
  | succ n ih => simp [renderRow, ih]

theorem renderRow_count_newline (data : List Nat) (p w : Nat) :
    (renderRow data p w).count '\n' = 0 := by
  induction w generalizing p with
  | zero => rfl
  | succ n ih =>
    rw [renderRow, List.count_cons, ih]
    simp [glyphOf_ne_newline]

theorem renderLines_length (data : List Nat) (p0 ls w h : Nat) :
    (renderLines data p0 ls w h).length = h * (w + 1) := by
  induction h generalizing p0 with
  | zero => simp [renderLines]
  | succ n ih =>
    rw [renderLines, List.length_append, List.length_cons, renderRow_length, ih]
    ring

theorem renderLines_count_newline (data : List Nat) (p0 ls w h : Nat) :
    (renderLines data p0 ls w h).count '\n' = h := by
  induction h generalizing p0 with
  | zero => rfl
  | succ n ih =>
    rw [renderLines, List.count_append, List.count_cons, renderRow_count_newline, ih]
    simp

theorem renderRow_congr (d₁ d₂ : List Nat) (w : Nat) :
    ∀ p₁ p₂, (∀ x, x < w → d₁.getD (p₁ + x) 0 = d₂.getD (p₂ + x) 0) →
      renderRow d₁ p₁ w = renderRow d₂ p₂ w := by
  induction w with
  | zero => intro _ _ _; rfl
  | succ n ih =>
    intro p₁ p₂ hsame
    rw [renderRow, renderRow]
    have h0 := hsame 0 (Nat.succ_pos n)
    rw [Nat.add_zero, Nat.add_zero] at h0
    rw [h0]
    congr 1
    apply ih
    intro x hx
    have := hsame (x + 1) (Nat.succ_lt_succ hx)
    rwa [show p₁ + (x + 1) = p₁ + 1 + x by omega,
         show p₂ + (x + 1) = p₂ + 1 + x by omega] at this

theorem renderLines_congr (d₁ d₂ : List Nat) (ls₁ ls₂ w h : Nat) :
    ∀ p₁ p₂, (∀ y x, y < h → x < w →
        d₁.getD (p₁ + y * ls₁ + x) 0 = d₂.getD (p₂ + y * ls₂ + x) 0) →
      renderLines d₁ p₁ ls₁ w h = renderLines d₂ p₂ ls₂ w h := by
  induction h with
  | zero => intro _ _ _; rfl
  | succ n ih =>
    intro p₁ p₂ hsame
    rw [renderLines, renderLines]
    have hrow : renderRow d₁ p₁ w = renderRow d₂ p₂ w := by
      apply renderRow_congr
      intro x hx
      have := hsame 0 x (Nat.succ_pos n) hx
      simpa using this
    rw [hrow]
    congr 1
    congr 1
    apply ih
    intro y x hy hx
    have := hsame (y + 1) x (Nat.succ_lt_succ hy) hx
    rwa [show p₁ + (y + 1) * ls₁ + x = p₁ + ls₁ + y * ls₁ + x by ring,
         show p₂ + (y + 1) * ls₂ + x = p₂ + ls₂ + y * ls₂ + x by ring] at this

/-! ## Claims about the glyph mapping and the renderer -/

/-- C5: the glyph mapping quantizes each 8-bit luminance sample by integer
division `sample / 52` into the ramp `" .-+#"`: sample 0 maps to `' '`,
sample 51 maps to `' '`, sample 52 maps to `'.'`, sample 255 maps to `'#'`,
and the final bucket, index 4, covers exactly the samples 208-255. -/
theorem C5_glyph_mapping :
    glyphOf 0 = ' ' ∧ glyphOf 51 = ' ' ∧ glyphOf 52 = '.' ∧ glyphOf 255 = '#' ∧
    (∀ s : Nat, 208 ≤ s → s ≤ 255 → s / 52 = 4 ∧ glyphOf s = '#') := by
  refine ⟨by decide, by decide, by decide, by decide, ?_⟩
  intro s h1 h2
  have hdiv : s / 52 = 4 := by omega
  refine ⟨hdiv, ?_⟩
  unfold glyphOf
  rw [hdiv]
  decide

/-- Witness for C5 at the concrete sample 208. -/
theorem C5_glyph_mapping_witness :
    (208 : Nat) ≤ 208 ∧ (208 : Nat) ≤ 255 ∧ (208 / 52 = 4 ∧ glyphOf 208 = '#') :=
  ⟨by decide, by decide, C5_glyph_mapping.2.2.2.2 208 (by decide) (by decide)⟩

/-- C9: for every 8-bit sample value 0-255 the glyph index `sample / 52` is
at most 4, hence strictly below the ramp length, so the lookup is in bounds
and the emitted character is always one of the five ramp characters. -/
theorem C9_index_in_bounds (s : Nat) (h : s ≤ 255) :
    s / 52 ≤ 4 ∧ s / 52 < glyphRamp.length ∧ glyphOf s ∈ glyphRamp := by
  have h4 : s / 52 ≤ 4 := by omega
  exact ⟨h4, by simpa [glyphRamp] using Nat.lt_succ_of_le h4, glyphOf_mem s⟩

/-- Witness for C9 at the concrete sample 255. -/
theorem C9_index_in_bounds_witness :
    (255 : Nat) ≤ 255 ∧
      (255 / 52 ≤ 4 ∧ 255 / 52 < glyphRamp.length ∧ glyphOf 255 ∈ glyphRamp) :=
  ⟨by decide, C9_index_in_bounds 255 (by decide)⟩

/-- C6: the renderer emits exactly the cursor-reset sequence, then `height`
newline-terminated lines of `width` glyphs each (so
`3 + height * (width + 1)` characters containing exactly `height`
newlines), and on the 2x2 frame with samples `[0,255,255,0]` it emits the
reset sequence, the line `" #"`, a newline, the line `"# "` and a
newline. -/
theorem C6_render_output :
    (∀ f : LumaFrame,
        (display_frame f).length = 3 + f.height * (f.width + 1) ∧
        (display_frame f).count '\n' = f.height) ∧
    display_frame ⟨2, 2, 2, [0, 255, 255, 0]⟩ =
      cursorReset ++ [' ', '#', '\n', '#', ' ', '\n'] := by
  constructor
  · intro f
    constructor
    · rw [display_frame, List.length_append, renderLines_length]
      rfl
    · rw [display_frame, List.count_append, renderLines_count_newline]
      norm_num
      decide
  · decide

/-- C10: the rendered output depends only on the `width × height` sample
values, not on the row stride: frames agreeing on width, height and on the
first `width` bytes of every row (each row starting at its own
`linesize` multiple) render identically. -/
theorem C10_stride_independent (f g : LumaFrame)
    (hw : f.width = g.width) (hh : f.height = g.height)
    (hdata : ∀ y, y < f.height → ∀ x, x < f.width →
      f.data.getD (y * f.linesize + x) 0 = g.data.getD (y * g.linesize + x) 0) :
    display_frame f = display_frame g := by
  rw [display_frame, display_frame, ← hw, ← hh]
  congr 1
  apply renderLines_congr
  intro y x hy hx
  simpa using hdata y hy x hx

/-- Witness for C10: two concrete frames with the same samples but strides
2 and 4 render the same character stream. -/
theorem C10_stride_independent_witness :
    (2 : Nat) = 2 ∧
      display_frame ⟨2, 2, 2, [10, 200, 60, 120]⟩ =
        display_frame ⟨2, 2, 4, [10, 200, 0, 0, 60, 120, 0, 0]⟩ :=
  ⟨rfl, C10_stride_independent _ _ rfl rfl (by decide)⟩

/-! ## Claims about the geometry resolver -/

theorem round_half_ge_one {k : ℤ} (hk : 1 ≤ k) : 1 ≤ round ((k : ℚ) / 2) := by
  rw [round_eq, Int.le_floor]
  have : (1 : ℚ) ≤ (k : ℚ) := by exact_mod_cast hk
  push_cast
  linarith

theorem target_width_even_eq : target_width_even = 80 := by
  unfold target_width_even maxAsciiWidth
  norm_num [round_eq]

theorem target_height_floored_eq (w h sn sd : ℤ) :
    target_height_floored w h sn sd =
      ((max (round (maxAsciiWidth / adjustedAspect w h sn sd)) 1 : ℤ) : ℚ) := by
  unfold target_height_floored target_height_rounded
  rcases lt_or_ge (round (maxAsciiWidth / adjustedAspect w h sn sd)) 1 with hlt | hge
  · rw [if_pos (by exact_mod_cast hlt), max_eq_right (by omega)]
    norm_num
  · rw [if_neg (by exact_mod_cast not_lt.mpr hge), max_eq_left hge]

theorem target_height_even_ge_two (w h sn sd : ℤ) :
    2 ≤ target_height_even w h sn sd := by
  unfold target_height_even
  rw [target_height_floored_eq]
  have h1 : 1 ≤ max (round (maxAsciiWidth / adjustedAspect w h sn sd)) 1 :=
    le_max_right _ _
  have := round_half_ge_one h1
  omega

theorem resolveGeometry_rows_eq (w h sn sd : ℤ) :
    (resolveGeometry w h sn sd).rows = target_height_even w h sn sd := by
  unfold resolveGeometry
  have := target_height_even_ge_two w h sn sd
  simp only
  rw [if_neg (by omega)]

/-- C3: for every positive source width and height and valid (positive)
SAR, the geometry resolver returns 80 columns, an even row count of at
least 2, and the row count equals the spec's formula: `round(80 /
((srcWidth*sarReal/srcHeight)/0.5))` floored at 1, rounded to the nearest
even integer, and clamped to at least 2. -/
theorem C3_geometry (w h sn sd : ℤ)
    (hw : 0 < w) (hh : 0 < h) (hsn : 0 < sn) (hsd : 0 < sd) :
    (resolveGeometry w h sn sd).columns = 80 ∧
    Even (resolveGeometry w h sn sd).rows ∧
    2 ≤ (resolveGeometry w h sn sd).rows ∧
    (resolveGeometry w h sn sd).rows = specRows w h sn sd := by
  have hcols : (resolveGeometry w h sn sd).columns = 80 := by
    unfold resolveGeometry
    rw [target_width_even_eq]
    norm_num
  have hrows := resolveGeometry_rows_eq w h sn sd
  have hge2 := target_height_even_ge_two w h sn sd
  refine ⟨hcols, ?_, by omega, ?_⟩
  · rw [hrows]
    exact ⟨round (target_height_floored w h sn sd / 2), by rw [target_height_even]; ring⟩
  · rw [hrows]
    unfold specRows
    have hformula :
        (80 : ℚ) / (((w : ℚ) * ((sn : ℚ) / (sd : ℚ)) / (h : ℚ)) / (1/2 : ℚ)) =
          maxAsciiWidth / adjustedAspect w h sn sd := by
      unfold adjustedAspect video_width maxAsciiWidth characterCellAspect
      rw [if_pos ⟨hsn, hsd⟩]
    rw [hformula]
    rw [max_eq_left]
    · rw [target_height_even, target_height_floored_eq]
    · rw [← target_height_floored_eq, ← target_height_even]
      exact target_height_even_ge_two w h sn sd

/-- Witness for C3 at the spec's square-source scenario 720x720, SAR 1:1
(expected GridGeometry 80x40). -/
theorem C3_geometry_witness :
    (0 : ℤ) < 720 ∧ (0 : ℤ) < 1 ∧
      ((resolveGeometry 720 720 1 1).columns = 80 ∧
       Even (resolveGeometry 720 720 1 1).rows ∧
       2 ≤ (resolveGeometry 720 720 1 1).rows ∧
       (resolveGeometry 720 720 1 1).rows = specRows 720 720 1 1) :=
  ⟨by norm_num, by norm_num,
    C3_geometry 720 720 1 1 (by norm_num) (by norm_num) (by norm_num) (by norm_num)⟩

/-- C7: a sample aspect ratio with a non-positive component is treated as
1/1: the resolved geometry equals the one resolved with SAR 1:1. -/
theorem C7_invalid_sar_default (w h sn sd : ℤ) (hbad : ¬(0 < sn ∧ 0 < sd)) :
    resolveGeometry w h sn sd = resolveGeometry w h 1 1 := by
  have hvw : video_width w sn sd = video_width w 1 1 := by
    unfold video_width
    rw [if_neg hbad, if_pos ⟨one_pos, one_pos⟩]
    norm_num
  unfold resolveGeometry target_height_even target_height_floored
    target_height_rounded adjustedAspect
  rw [hvw]

/-- Witness for C7 at SAR 0:1 on a 640x480 source. -/
theorem C7_invalid_sar_default_witness :
    ¬((0 : ℤ) < 0 ∧ (0 : ℤ) < 1) ∧
      resolveGeometry 640 480 0 1 = resolveGeometry 640 480 1 1 :=
  ⟨by norm_num, C7_invalid_sar_default 640 480 0 1 (by norm_num)⟩

/-- C8: the geometry resolver is pure and deterministic: identical inputs
produce identical GridGeometry. -/
theorem C8_deterministic (w h sn sd w' h' sn' sd' : ℤ)
    (h1 : w = w') (h2 : h = h') (h3 : sn = sn') (h4 : sd = sd') :
    resolveGeometry w h sn sd = resolveGeometry w' h' sn' sd' := by
  subst h1; subst h2; subst h3; subst h4; rfl

/-- Witness for C8 at a concrete 1920x1080, SAR 1:1 input. -/
theorem C8_deterministic_witness :
    (1920 : ℤ) = 1920 ∧
      resolveGeometry 1920 1080 1 1 = resolveGeometry 1920 1080 1 1 :=
  ⟨rfl, C8_deterministic 1920 1080 1 1 1920 1080 1 1 rfl rfl rfl rfl⟩

/-! ## Claims about the pipeline driver -/

/-- C1 (code-bug demonstration): on a stream with two displayable frames
the read loop renders BOTH frames and only stops at end of stream — it
does not stop immediately after the first rendered frame, because the
`frame_displayed = 1;` statement at line 329 is commented out and
`frame_displayed` stays `false` forever. -/
theorem C1_loop_renders_past_first_frame :
    runDriver (DriverInput.run
        [ReadEvent.video .ok [RecvStep.got true .yield],
         ReadEvent.video .ok [RecvStep.got true .yield]] ReadTerm.eofT) =
      ⟨2, 1⟩ ∧
    frame_displayed = false := by
  decide

/-- C2 (code-bug demonstration): on a stream whose single packet decodes
and filters to exactly one displayed frame, the process still exits with
code 1, not 0: with `frame_displayed` constantly `false`, reaching end of
stream lands in the `!frame_displayed && ret == AVERROR_EOF` branch of
lines 357-360. No run of the program can reach `exit(0)` after displaying
a frame. -/
theorem C2_exit_one_despite_display :
    runDriver (DriverInput.run
        [ReadEvent.video .ok [RecvStep.got true .yield]] ReadTerm.eofT) =
      ⟨1, 1⟩ := by
  decide

/-- C4 counterexample: a pull that returns Drained (`AVERROR_EOF`) does
NOT put the driver in the Failed/FilterError state; the run ends in the
ordinary end-of-stream state instead. -/
theorem C4_counterexample_drained_not_failed :
    (runLoop 0 [ReadEvent.video .ok [RecvStep.got true .drained]]
        ReadTerm.eofT).endState = EndState.readEof ∧
    EndState.readEof ≠ EndState.filterFatal := by
  decide

/-- C4 (amended): a Drained pull is handled exactly like Empty
(needs-more-input): the pull loop is left without error and the read loop
continues; only a fatal pull error (negative, neither `EAGAIN` nor
`AVERROR_EOF`) aborts the run with the FilterError outcome. -/
theorem C4_drained_behaves_like_empty :
    (∀ (n : Nat) (p : Bool) (rest : List RecvStep),
        runRecvs n (RecvStep.got p .drained :: rest) =
          runRecvs n (RecvStep.got p .empty :: rest)) ∧
    (∀ (n : Nat) (rest : List RecvStep),
        runRecvs n (RecvStep.got true .fatal :: rest) =
          (n, RecvRes.gotoFilterFatal)) ∧
    (∀ (n : Nat) (recvRest : List RecvStep) (evs : List ReadEvent)
        (t : ReadTerm),
        runLoop n (ReadEvent.video .ok (RecvStep.got true .fatal :: recvRest)
            :: evs) t =
          ⟨n, EndState.filterFatal⟩) := by
  refine ⟨fun n p rest => ?_, fun n rest => rfl, fun n recvRest evs t => rfl⟩
  cases p <;> rfl

end AsciiVideoPlay
